import Mathlib

/-!
Verification development for the `rusty-dee-dee` utility: a shallow Lean
embedding of the block-copy engine (`do_dd` in `src/main.rs`), the
wide-character descriptor marshaller (`UnicodeStringHolder` in
`src/winvol.rs`), the disk/partition enumerator (`get_windows_disks`), the
device size query (`get_disk_size`) and the exit-code plumbing
(`do_main` / `do_list_windows`).

Modelling conventions:
* byte streams are `List Nat` (each element a byte value of the file);
* a successful `read` on a regular file returns `min(requested, available)`
  bytes, so reading is modelled by `List.take` on the not-yet-read suffix of
  the source;
* a successful `write` writes the whole buffer (the short-write branch of the
  code is therefore never taken in the model and the loop exit code is `0`);
* `u64` / `usize` quantities are `Nat`; the source has no wrapping
  arithmetic on them (the absence of underflow is itself proved below);
* fallible native calls are abstract parameters returning `Except`.
-/

/-- The per-iteration read request size of `do_dd`'s copy loop
(src/main.rs lines 215-219):
`if remaining_bytes > block_size_u64 { block_size } else { remaining_bytes }`. -/
def count_to_read (blockSize budget : Nat) : Nat :=
  if blockSize < budget then blockSize else budget

/-- One run of the copy loop of `do_dd` (src/main.rs lines 211-247).
`blockSize` is `block_size`, `budget` is `remaining_bytes` (initially
`count`), `src` is the sequence of source bytes that lie after the current
file position.  Returns the bytes written to the destination, in order,
together with the exit code of the loop.  Mirrors the code: the read of
`buf[0..count_to_read]` returns `take count_to_read`;
`remaining_bytes -= read_count`; a zero read breaks with success; otherwise
the chunk is written (the model's write always succeeds in full, so the
short-write error return at lines 243-246 is unreachable). -/
def copyLoop (blockSize budget : Nat) (src : List Nat) : List Nat × Nat :=
  if budget = 0 then ([], 0)
  else if h : (src.take (count_to_read blockSize budget)).length = 0 then ([], 0)
  else
    let rest := copyLoop blockSize
      (budget - (src.take (count_to_read blockSize budget)).length)
      (src.drop (count_to_read blockSize budget))
    (src.take (count_to_read blockSize budget) ++ rest.1, rest.2)
termination_by src.length
decreasing_by
  simp only [List.length_take, List.length_drop] at h ⊢
  omega

/-- The sizes of the read requests the copy loop issues against the source
file, in order: every iteration requests `count_to_read` bytes (the slice
`buf[0..count_to_read]`), including the final iteration whose read comes back
empty. -/
def copyLoopReads (blockSize budget : Nat) (src : List Nat) : List Nat :=
  if budget = 0 then []
  else if h : (src.take (count_to_read blockSize budget)).length = 0 then
    [count_to_read blockSize budget]
  else
    count_to_read blockSize budget ::
      copyLoopReads blockSize
        (budget - (src.take (count_to_read blockSize budget)).length)
        (src.drop (count_to_read blockSize budget))
termination_by src.length
decreasing_by
  simp only [List.length_take, List.length_drop] at h ⊢
  omega

/-- Iteration-wise safety of the copy loop, as an executable check: at every
iteration the number of bytes the read returns is at most the requested
`count_to_read` (the buffer slice length) and at most the remaining budget,
so `remaining_bytes -= read_count` cannot underflow. -/
def copyLoopSafe (blockSize budget : Nat) (src : List Nat) : Bool :=
  if budget = 0 then true
  else if h : (src.take (count_to_read blockSize budget)).length = 0 then
    decide ((src.take (count_to_read blockSize budget)).length ≤ count_to_read blockSize budget ∧
      (src.take (count_to_read blockSize budget)).length ≤ budget)
  else
    decide ((src.take (count_to_read blockSize budget)).length ≤ count_to_read blockSize budget ∧
      (src.take (count_to_read blockSize budget)).length ≤ budget) &&
    copyLoopSafe blockSize
      (budget - (src.take (count_to_read blockSize budget)).length)
      (src.drop (count_to_read blockSize budget))
termination_by src.length
decreasing_by
  simp only [List.length_take, List.length_drop] at h ⊢
  omega

/-- Result of overwriting the destination file at byte position `pos` with
`data`: the file is extended with zero bytes if the write position lies past
its end, and is unchanged when nothing is written (a seek alone does not
change a file). -/
def writeAt (dest : List Nat) (pos : Nat) (data : List Nat) : List Nat :=
  if data.isEmpty then dest
  else
    (dest ++ List.replicate (pos - dest.length) 0).take pos ++ data ++
      (dest ++ List.replicate (pos - dest.length) 0).drop (pos + data.length)

/-- The file-content effect of a successful `do_dd` run: the source is read
starting at `srcSkip` (the seek at line 176), the loop output is written to
the destination starting at `destSkip` (the seek at line 202).  Returns the
final destination content and the exit code. -/
def do_dd_copy (blockSize budget : Nat) (src : List Nat) (srcSkip : Nat)
    (dest : List Nat) (destSkip : Nat) : List Nat × Nat :=
  let r := copyLoop blockSize budget (src.drop srcSkip)
  (writeAt dest destSkip r.1, r.2)

/-- `count` when no `-c` option is given: `u64::max_value()`
(src/main.rs line 130). -/
def UNBOUNDED : Nat := 2 ^ 64 - 1

/-- A Unicode scalar value, i.e. the code point of a Rust `char`:
below the surrogate range or between it and `0x110000`. -/
def ValidScalar (n : Nat) : Bool :=
  decide (n < 0xD800) || (decide (0xDFFF < n) && decide (n < 0x110000))

/-- UTF-16 encoding of one scalar value, as `str::encode_utf16` produces it:
one code unit below `0x10000`, otherwise a high/low surrogate pair. -/
def encodeUtf16Char (c : Nat) : List Nat :=
  if c < 0x10000 then [c]
  else [0xD800 + (c - 0x10000) / 0x400, 0xDC00 + (c - 0x10000) % 0x400]

/-- `s.encode_utf16().collect::<Vec<u16>>()`: the concatenated UTF-16 code
units of the text (text is modelled as its list of scalar values). -/
def encode_utf16 (s : List Nat) : List Nat :=
  s.flatMap encodeUtf16Char

/-- `String::from_utf16`: decodes UTF-16 code units back to scalar values;
fails (`none`) on a lone or misordered surrogate. -/
def decode_utf16 : List Nat → Option (List Nat)
  | [] => some []
  | u :: rest =>
    if u < 0xD800 ∨ (0xDFFF < u ∧ u < 0x10000) then
      (decode_utf16 rest).map (fun tl => u :: tl)
    else if u < 0xDC00 then
      match rest with
      | [] => none
      | l :: rest2 =>
        if 0xDC00 ≤ l ∧ l ≤ 0xDFFF then
          (decode_utf16 rest2).map
            (fun tl => (0x10000 + (u - 0xD800) * 0x400 + (l - 0xDC00)) :: tl)
        else none
    else none
termination_by l => l.length

/-- The `UNICODE_STRING` size-overflow error (src/winvol.rs lines 68-76). -/
inductive UnicodeStringSizeOverflow where
  | mk
deriving DecidableEq

/-- The owner of the wide-character backing buffer
(src/winvol.rs lines 78-80).  The `Vec<u16>` is modelled as the list of its
code units. -/
structure UnicodeStringHolder where
  backing : List Nat
deriving DecidableEq

/-- `UnicodeStringHolder::new_from_vec` (src/winvol.rs lines 82-91): fails
when `vec.capacity() * size_of::<u16>()` exceeds `u16::MAX = 65535`,
otherwise wraps the vector.  The check reads the vector's capacity, not its
length; Rust guarantees only `capacity ≥ length`, so the capacity `cap` is
an explicit parameter, constrained to `cap ≥ vec.length` by the theorems. -/
def new_from_vec (vec : List Nat) (cap : Nat) :
    Except UnicodeStringSizeOverflow UnicodeStringHolder :=
  if cap * 2 > 65535 then Except.error UnicodeStringSizeOverflow.mk
  else Except.ok ⟨vec⟩

/-- `UnicodeStringHolder::new_from_string` (src/winvol.rs lines 98-101):
encodes the text as UTF-16 and wraps the collected vector; `cap` is the
capacity the allocator gave the collected vector (any value at least its
length). -/
def new_from_string (s : List Nat) (cap : Nat) :
    Except UnicodeStringSizeOverflow UnicodeStringHolder :=
  new_from_vec (encode_utf16 s) cap

/-- `UnicodeStringHolder::try_as_string` (src/winvol.rs lines 129-131):
`String::from_utf16(&self.backing)`. -/
def try_as_string (h : UnicodeStringHolder) : Option (List Nat) :=
  decode_utf16 h.backing

/-- One record of the kernel object namespace
(`DirectoryEntry`, src/winvol.rs lines 152-155).  The two text fields are
lists of characters (Lean `String` functions do not evaluate inside the
kernel, so names are kept as the underlying character lists). -/
structure DirectoryEntry where
  name : List Char
  type_name : List Char
deriving DecidableEq

instance exceptDecEq {ε α : Type} [DecidableEq ε] [DecidableEq α] :
    DecidableEq (Except ε α) := fun x y =>
  match x, y with
  | Except.error a, Except.error b =>
    if h : a = b then isTrue (by rw [h])
    else isFalse (by intro hc; cases hc; exact h rfl)
  | Except.error _, Except.ok _ => isFalse (by intro hc; cases hc)
  | Except.ok _, Except.error _ => isFalse (by intro hc; cases hc)
  | Except.ok a, Except.ok b =>
    if h : a = b then isTrue (by rw [h])
    else isFalse (by intro hc; cases hc; exact h rfl)

/-- The retain predicate of the root walk (src/winvol.rs line 234):
`dev.type_name == "Directory" && dev.name.starts_with("Harddisk")`. -/
def keepDevice (dev : DirectoryEntry) : Bool :=
  decide (dev.type_name = "Directory".data) &&
    "Harddisk".data.isPrefixOf dev.name

/-- The retain predicate of the per-device walk (src/winvol.rs line 239):
`pt.name.starts_with("Partition")`. -/
def keepPartition (pt : DirectoryEntry) : Bool :=
  "Partition".data.isPrefixOf pt.name

/-- The emitted path (src/winvol.rs line 241):
`format!("\\\\?\\GLOBALROOT\\Device\\{}\\{}", dev.name, partition.name)`. -/
def partitionPath (dev pt : DirectoryEntry) : List Char :=
  "\\\\?\\GLOBALROOT\\Device\\".data ++ dev.name ++ "\\".data ++ pt.name

/-- The body of the device loop of `get_windows_disks` (src/winvol.rs lines
235-244), folded over the retained device list: for each device, walk its
subdirectory (propagating a walk error), retain the partition entries and
emit their paths in order.  `ns` abstracts `enumerate_object_path`, keyed by
the path it is called with. -/
def collectDisks (ns : List Char → Except Nat (List DirectoryEntry)) :
    List DirectoryEntry → Except Nat (List (List Char))
  | [] => Except.ok []
  | dev :: rest =>
    match ns ("\\Device\\".data ++ dev.name) with
    | Except.error e => Except.error e
    | Except.ok parts0 =>
      match collectDisks ns rest with
      | Except.error e => Except.error e
      | Except.ok tl =>
        Except.ok ((parts0.filter keepPartition).map (partitionPath dev) ++ tl)

/-- `get_windows_disks` (src/winvol.rs lines 230-247) over the abstract
namespace walk `ns`: walk `\Device`, retain the `Directory`-typed entries
whose name starts with `Harddisk`, and collect the partition paths of each
retained device. -/
def get_windows_disks (ns : List Char → Except Nat (List DirectoryEntry)) :
    Except Nat (List (List Char)) :=
  match ns "\\Device".data with
  | Except.error e => Except.error e
  | Except.ok devs0 => collectDisks ns (devs0.filter keepDevice)

/-- The observable outcome of the `DeviceIoControl` call in `get_disk_size`
(src/winvol.rs lines 256-267), as a function of the initial value of the
output buffer (the `GET_LENGTH_INFORMATION` length field, an `i64`):
`result` is the returned `BOOL`, `newLength` the length field left in the
buffer, `bytesReturned` the by-reference byte count, `lastError` the
thread's last OS error code. -/
structure IoctlOutcome where
  result : Int
  newLength : Int
  bytesReturned : Nat
  lastError : Nat

/-- The two failure shapes of `get_disk_size`: a failed control call
surfaced as the last OS error (src/winvol.rs line 269), or an invalid-data
error for a negative reported length (lines 272-277). -/
inductive DiskSizeError where
  | osError (code : Nat)
  | invalidData (length : Int)
deriving DecidableEq

/-- `get_disk_size` (src/winvol.rs lines 250-280).  The output buffer is
created zeroed (`unsafe { zeroed() }`), so the control call is consulted at
initial buffer value `0`; `result == 0` means the call failed;
`bytes_returned` is received but never examined; a negative length is
rejected as invalid data; otherwise `length.try_into().unwrap()` converts
the non-negative `i64` to `u64`. -/
def get_disk_size (ioctl : Int → IoctlOutcome) : Except DiskSizeError Nat :=
  if (ioctl 0).result = 0 then
    Except.error (DiskSizeError.osError (ioctl 0).lastError)
  else if (ioctl 0).newLength < 0 then
    Except.error (DiskSizeError.invalidData (ioctl 0).newLength)
  else
    Except.ok (ioctl 0).newLength.toNat

/-- The per-disk size lookup of the listing loop (src/main.rs lines 54-71):
`None` — the size line is suppressed and a diagnostic printed — when
opening the disk or querying its size fails; the failure is swallowed. -/
def listDiskSize (openRes : List Char → Except Nat Unit)
    (sizeRes : List Char → Except Nat Nat) (disk : List Char) : Option Nat :=
  match openRes disk with
  | Except.error _ => Option.none
  | Except.ok _ =>
    match sizeRes disk with
    | Except.error _ => Option.none
    | Except.ok n => some n

/-- `do_list_windows` (src/main.rs lines 40-81): exits 1 on extra
arguments (`args.len() != 2`) or when `get_windows_disks` fails; otherwise
prints every disk with its optional size and returns 0.  First component:
the printed (disk, size) lines; second: the return code. -/
def do_list_windows (argCount : Nat) (disksRes : Except Nat (List (List Char)))
    (openRes : List Char → Except Nat Unit)
    (sizeRes : List Char → Except Nat Nat) :
    List (List Char × Option Nat) × Nat :=
  if argCount ≠ 2 then ([], 1)
  else match disksRes with
    | Except.error _ => ([], 1)
    | Except.ok disks => (disks.map (fun d => (d, listDiskSize openRes sizeRes d)), 0)

/-- `do_main` (src/main.rs lines 252-283): command dispatch.  `args` is
`env::args()` (never empty); `listResult` and `ddResult` are the return
codes of `do_list_windows` and `do_dd`; `isWindows` is the
`cfg!(target_os = "windows")` flag guarding the `list` command. -/
def do_main (args : List (List Char)) (listResult ddResult : Nat)
    (isWindows : Bool) : Nat :=
  if args.length = 1 then 1
  else
    match args[1]? with
    | Option.none => 1
    | some cmd =>
      if cmd = "--help".data then 0
      else if cmd = "list".data then (if isWindows then listResult else 1)
      else if cmd = "dd".data then ddResult
      else 1

theorem count_to_read_le_budget (blockSize budget : Nat) :
    count_to_read blockSize budget ≤ budget := by
  unfold count_to_read; split <;> omega

theorem count_to_read_pos (blockSize budget : Nat) (hbs : 1 ≤ blockSize)
    (hb : 1 ≤ budget) : 1 ≤ count_to_read blockSize budget := by
  unfold count_to_read; split <;> omega

-- Main loop lemma: with a positive block size the loop copies exactly
-- `min budget src.length` bytes, namely `src.take budget`, and exits with 0.
theorem copyLoop_eq_take_aux (blockSize : Nat) (hbs : 1 ≤ blockSize) :
    ∀ (n : Nat) (src : List Nat), src.length ≤ n →
      ∀ budget, copyLoop blockSize budget src = (src.take budget, 0) := by
  intro n
  induction n with
  | zero =>
    intro src hlen budget
    have hnil : src = [] := List.eq_nil_of_length_eq_zero (by omega)
    subst hnil
    rw [copyLoop]
    by_cases hb : budget = 0 <;> simp [hb]
  | succ n ih =>
    intro src hlen budget
    rw [copyLoop]
    by_cases hb : budget = 0
    · simp [hb]
    · simp only [hb, if_false]
      have hctr1 : 1 ≤ count_to_read blockSize budget :=
        count_to_read_pos blockSize budget hbs (by omega)
      have hctrb : count_to_read blockSize budget ≤ budget :=
        count_to_read_le_budget blockSize budget
      by_cases hz : (src.take (count_to_read blockSize budget)).length = 0
      · -- the read returned zero bytes: the source is exhausted
        have hsrc : src = [] := by
          rcases src with _ | ⟨a, l⟩
          · rfl
          · simp [List.length_take] at hz; omega
        simp [hz, hsrc]
      · simp only [hz, dif_neg, not_false_iff]
        have hlt : (src.drop (count_to_read blockSize budget)).length ≤ n := by
          simp only [List.length_take] at hz
          simp only [List.length_drop]
          omega
        rw [ih (src.drop (count_to_read blockSize budget)) hlt]
        simp only [List.length_take]
        rcases Nat.le_total (count_to_read blockSize budget) src.length with hle | hge
        · -- full read of `count_to_read` bytes
          have hmin : min (count_to_read blockSize budget) src.length
              = count_to_read blockSize budget := by omega
          rw [hmin]
          have hadd := List.take_add src (count_to_read blockSize budget)
            (budget - count_to_read blockSize budget)
          rw [Nat.add_sub_cancel' hctrb] at hadd
          rw [← hadd]
        · -- short read: the whole remaining source was consumed
          have hmin : min (count_to_read blockSize budget) src.length
              = src.length := by omega
          rw [hmin]
          have hdrop : src.drop (count_to_read blockSize budget) = [] :=
            List.drop_eq_nil_of_le hge
          have htake : src.take (count_to_read blockSize budget) = src :=
            List.take_of_length_le hge
          rw [hdrop, htake]
          simp only [List.take_nil, List.append_nil]
          rw [List.take_of_length_le (by omega)]

theorem copyLoop_eq_take (blockSize budget : Nat) (src : List Nat)
    (hbs : 1 ≤ blockSize) :
    copyLoop blockSize budget src = (src.take budget, 0) :=
  copyLoop_eq_take_aux blockSize hbs src.length src (Nat.le_refl _) budget

theorem copyLoopReads_sum_aux (blockSize : Nat) (hbs : 1 ≤ blockSize) :
    ∀ (n : Nat) (src : List Nat), src.length ≤ n →
      ∀ budget, budget ≤ src.length →
        (copyLoopReads blockSize budget src).sum = budget := by
  intro n
  induction n with
  | zero =>
    intro src hlen budget hbud
    have hb0 : budget = 0 := by omega
    subst hb0
    rw [copyLoopReads]
    simp
  | succ n ih =>
    intro src hlen budget hbud
    rw [copyLoopReads]
    by_cases hb : budget = 0
    · simp [hb]
    · simp only [hb, if_false]
      have hctr1 : 1 ≤ count_to_read blockSize budget :=
        count_to_read_pos blockSize budget hbs (by omega)
      have hctrb : count_to_read blockSize budget ≤ budget :=
        count_to_read_le_budget blockSize budget
      have hz : ¬ (src.take (count_to_read blockSize budget)).length = 0 := by
        simp only [List.length_take]
        omega
      simp only [hz, dif_neg, not_false_iff, List.sum_cons]
      have hmin : (src.take (count_to_read blockSize budget)).length
          = count_to_read blockSize budget := by
        simp only [List.length_take]; omega
      rw [hmin]
      rw [ih (src.drop (count_to_read blockSize budget))
        (by simp only [List.length_drop]; omega)
        (budget - count_to_read blockSize budget)
        (by simp only [List.length_drop]; omega)]
      omega

theorem copyLoopSafe_aux :
    ∀ (n : Nat) (src : List Nat), src.length ≤ n →
      ∀ (blockSize budget : Nat), copyLoopSafe blockSize budget src = true := by
  intro n
  induction n with
  | zero =>
    intro src hlen bs budget
    have hnil : src = [] := List.eq_nil_of_length_eq_zero (by omega)
    subst hnil
    rw [copyLoopSafe]
    by_cases hb : budget = 0 <;> simp [hb]
  | succ n ih =>
    intro src hlen bs budget
    rw [copyLoopSafe]
    by_cases hb : budget = 0
    · simp [hb]
    · simp only [hb, if_false]
      by_cases hz : (src.take (count_to_read bs budget)).length = 0
      · simp only [hz, dif_pos]
        simp only [decide_eq_true_eq]
        omega
      · simp only [hz, dif_neg, not_false_iff, Bool.and_eq_true, decide_eq_true_eq]
        constructor
        · constructor
          · simp only [List.length_take]; omega
          · simp only [List.length_take] at hz ⊢
            have := count_to_read_le_budget bs budget
            omega
        · exact ih (src.drop (count_to_read bs budget))
            (by simp only [List.length_take] at hz
                simp only [List.length_drop]; omega) bs _

theorem writeAt_drop_take (dest : List Nat) (pos : Nat) (data : List Nat) :
    ((writeAt dest pos data).drop pos).take data.length = data := by
  rcases data with _ | ⟨a, d⟩
  · simp [writeAt]
  · unfold writeAt
    simp only [List.isEmpty_cons, Bool.false_eq_true, if_false]
    rw [List.append_assoc, List.drop_left']
    · exact List.take_left _ _
    · simp only [List.length_take, List.length_append, List.length_replicate]
      omega

/-- C1: for every `block_size ≥ 1`, every pair of skip offsets and every
source content, running the copy loop of `do_dd` with an unbounded count
(no `-c` given, so `count = u64::max_value()`) makes the destination bytes
starting at `dest_skip` equal, exactly, to the source bytes starting at
`src_skip` through the end of the source; the resulting destination content
`(writeAt dest destSkip (src.drop srcSkip), 0)` does not mention
`blockSize`, so it is independent of which block size was chosen. -/
theorem dd_unbounded_copies_source_suffix (blockSize srcSkip destSkip : Nat)
    (src dest : List Nat) (hbs : 1 ≤ blockSize) (hlen : src.length ≤ UNBOUNDED) :
    do_dd_copy blockSize UNBOUNDED src srcSkip dest destSkip
        = (writeAt dest destSkip (src.drop srcSkip), 0) ∧
    ((do_dd_copy blockSize UNBOUNDED src srcSkip dest destSkip).1.drop destSkip).take
        (src.length - srcSkip) = src.drop srcSkip := by
  have h1 : do_dd_copy blockSize UNBOUNDED src srcSkip dest destSkip
      = (writeAt dest destSkip (src.drop srcSkip), 0) := by
    unfold do_dd_copy
    rw [copyLoop_eq_take blockSize UNBOUNDED (src.drop srcSkip) hbs]
    rw [List.take_of_length_le (by simp only [List.length_drop]; omega)]
  refine ⟨h1, ?_⟩
  rw [h1]
  have hlen2 : src.length - srcSkip = (src.drop srcSkip).length := by
    simp only [List.length_drop]
  rw [hlen2]
  exact writeAt_drop_take dest destSkip (src.drop srcSkip)

theorem dd_unbounded_copies_source_suffix_witness :
    (1 ≤ 2 ∧ ([10, 20, 30] : List Nat).length ≤ UNBOUNDED) ∧
    (do_dd_copy 2 UNBOUNDED [10, 20, 30] 1 [9, 9, 9, 9] 2
        = (writeAt [9, 9, 9, 9] 2 (([10, 20, 30] : List Nat).drop 1), 0) ∧
     ((do_dd_copy 2 UNBOUNDED [10, 20, 30] 1 [9, 9, 9, 9] 2).1.drop 2).take
        (([10, 20, 30] : List Nat).length - 1) = ([10, 20, 30] : List Nat).drop 1) :=
  ⟨⟨by decide, by decide⟩,
   dd_unbounded_copies_source_suffix 2 1 2 [10, 20, 30] [9, 9, 9, 9]
     (by decide) (by decide)⟩

/-- C2: for every count `C`, if the source has at least `C` bytes remaining
after the skip, the copy loop transfers exactly `C` bytes — the first `C`
bytes of the remaining source — terminates with exit code 0, and the read
requests it issues sum to exactly `C`, so it never requests a read past `C`
total bytes from the source. -/
theorem dd_bounded_count_exact_transfer (blockSize C : Nat) (src : List Nat)
    (hbs : 1 ≤ blockSize) (hC : C ≤ src.length) :
    copyLoop blockSize C src = (src.take C, 0) ∧
    (copyLoop blockSize C src).1.length = C ∧
    (copyLoopReads blockSize C src).sum = C := by
  have h1 := copyLoop_eq_take blockSize C src hbs
  refine ⟨h1, ?_, ?_⟩
  · rw [h1]
    simp only [List.length_take]
    omega
  · exact copyLoopReads_sum_aux blockSize hbs src.length src (Nat.le_refl _) C hC

theorem dd_bounded_count_exact_transfer_witness :
    (1 ≤ 1 ∧ 2 ≤ ([5, 6, 7] : List Nat).length) ∧
    (copyLoop 1 2 [5, 6, 7] = (([5, 6, 7] : List Nat).take 2, 0) ∧
     (copyLoop 1 2 [5, 6, 7]).1.length = 2 ∧
     (copyLoopReads 1 2 [5, 6, 7]).sum = 2) :=
  ⟨⟨by decide, by decide⟩,
   dd_bounded_count_exact_transfer 1 2 [5, 6, 7] (by decide) (by decide)⟩

/-- C3: when the source holds fewer than `count` bytes after the skip, the
copy loop copies the whole remaining source and returns success (exit code
0) even though the remaining budget is still positive; moreover a read that
returns zero bytes (exhausted source) always terminates the loop with
success, whatever the remaining budget is. -/
theorem dd_short_source_success (blockSize C : Nat) (src : List Nat)
    (hbs : 1 ≤ blockSize) (hshort : src.length < C) :
    copyLoop blockSize C src = (src, 0) ∧
    (∀ budget, copyLoop blockSize budget [] = ([], 0)) := by
  constructor
  · rw [copyLoop_eq_take blockSize C src hbs]
    rw [List.take_of_length_le (by omega)]
  · intro budget
    rw [copyLoop]
    by_cases hb : budget = 0 <;> simp [hb]

theorem dd_short_source_success_witness :
    (1 ≤ 4 ∧ ([1, 2] : List Nat).length < 100) ∧
    (copyLoop 4 100 [1, 2] = ([1, 2], 0) ∧
     (∀ budget, copyLoop 4 budget [] = ([], 0))) :=
  ⟨⟨by decide, by decide⟩,
   dd_short_source_success 4 100 [1, 2] (by decide) (by decide)⟩

/-- C9: in every iteration of the copy loop the number of bytes read is at
most the requested slice length `count_to_read` (which is
min of `block_size` and `remaining_bytes`) and at most the remaining
budget, so the unchecked `remaining_bytes -= read_count` never underflows;
the executable per-iteration safety check passes for every block size ≥ 1,
every count and every source.  (The `usize → u64` conversions in the loop
are total — `usize` is at most 64 bits wide — and the `u64 → usize`
conversion of `remaining_bytes` happens exactly in the branch where
`remaining_bytes ≤ block_size`, a `usize` value.) -/
theorem dd_copy_loop_panic_free (blockSize budget : Nat) (src : List Nat)
    (hbs : 1 ≤ blockSize) :
    copyLoopSafe blockSize budget src = true :=
  copyLoopSafe_aux src.length src (Nat.le_refl _) blockSize budget

theorem dd_copy_loop_panic_free_witness :
    1 ≤ 3 ∧ copyLoopSafe 3 7 [1, 2, 3, 4, 5] = true :=
  ⟨by decide, dd_copy_loop_panic_free 3 7 [1, 2, 3, 4, 5] (by decide)⟩

/-- C10: with `count = 0` (`-c 0`) the copy loop body never executes: the
loop issues no read request and writes nothing, `do_dd` leaves the
destination content unchanged and returns exit code 0, for every block
size, every source and every pair of skips. -/
theorem dd_zero_count_no_reads_no_writes (blockSize srcSkip destSkip : Nat)
    (src dest : List Nat) :
    copyLoopReads blockSize 0 (src.drop srcSkip) = [] ∧
    copyLoop blockSize 0 (src.drop srcSkip) = ([], 0) ∧
    do_dd_copy blockSize 0 src srcSkip dest destSkip = (dest, 0) := by
  have hr : copyLoopReads blockSize 0 (src.drop srcSkip) = [] := by
    rw [copyLoopReads]; simp
  have hl : copyLoop blockSize 0 (src.drop srcSkip) = ([], 0) := by
    rw [copyLoop]; simp
  refine ⟨hr, hl, ?_⟩
  unfold do_dd_copy
  rw [hl]
  simp [writeAt]

-- UTF-16 round trip on valid scalar values.
theorem decode_encode_utf16 (s : List Nat)
    (hv : ∀ c ∈ s, ValidScalar c = true) :
    decode_utf16 (encode_utf16 s) = some s := by
  induction s with
  | nil =>
    rw [encode_utf16, List.flatMap_nil, decode_utf16.eq_def]
  | cons c cs ih =>
    have hc : ValidScalar c = true := hv c (List.mem_cons_self c cs)
    have hcs : ∀ x ∈ cs, ValidScalar x = true :=
      fun x hx => hv x (List.mem_cons_of_mem _ hx)
    have hcv : c < 0xD800 ∨ (0xDFFF < c ∧ c < 0x110000) := by
      simp only [ValidScalar, Bool.or_eq_true, Bool.and_eq_true,
        decide_eq_true_eq] at hc
      exact hc
    have henc : encode_utf16 (c :: cs) = encodeUtf16Char c ++ encode_utf16 cs := by
      rw [encode_utf16, encode_utf16, List.flatMap_cons]
    by_cases h1 : c < 0x10000
    · rw [henc]
      rw [encodeUtf16Char, if_pos h1]
      rw [List.cons_append, List.nil_append, decode_utf16.eq_def]
      simp only []
      rw [if_pos (by omega)]
      rw [ih hcs]
      rfl
    · rw [henc]
      rw [encodeUtf16Char, if_neg h1]
      have hu : c - 0x10000 < 0x100000 := by omega
      have hdm := Nat.div_add_mod (c - 0x10000) 0x400
      have hq : (c - 0x10000) / 0x400 < 0x400 := by omega
      have hr : (c - 0x10000) % 0x400 < 0x400 := Nat.mod_lt _ (by omega)
      rw [List.cons_append, List.cons_append, List.nil_append, decode_utf16.eq_def]
      simp only []
      rw [if_neg (by omega), if_pos (by omega)]
      rw [if_pos (by constructor <;> omega)]
      rw [ih hcs]
      simp only [Option.map_some']
      have hval : 0x10000 + (0xD800 + (c - 0x10000) / 0x400 - 0xD800) * 0x400 +
          (0xDC00 + (c - 0x10000) % 0x400 - 0xDC00) = c := by omega
      rw [hval]

-- A text of scalar values below 0x10000 encodes to one code unit each.
theorem encode_utf16_replicate_single (c : Nat) (hc : c < 0x10000) :
    ∀ n, encode_utf16 (List.replicate n c) = List.replicate n c := by
  intro n
  induction n with
  | zero => rfl
  | succ n ih =>
    rw [List.replicate_succ, encode_utf16, List.flatMap_cons]
    rw [encodeUtf16Char, if_pos hc]
    rw [encode_utf16] at ih
    rw [ih, List.cons_append, List.nil_append]

/-- C4 counterexample: the claim asserts that `new_from_string` succeeds for
every text whose UTF-16 encoding is below 65535 bytes, but the code checks
the collected vector's *capacity* (src/winvol.rs lines 83-84), which Rust
guarantees only to be at least the length.  The text of 16384 `A`s encodes
to 16384 code units = 32768 bytes, below the bound, yet with the admissible
collect capacity 32768 (≥ 16384) the constructor reports the size
overflow. -/
theorem descriptor_below_bound_overflow_cex :
    (∀ c ∈ List.replicate 16384 65, ValidScalar c = true) ∧
    (encode_utf16 (List.replicate 16384 65)).length * 2 < 65535 ∧
    (encode_utf16 (List.replicate 16384 65)).length ≤ 32768 ∧
    new_from_string (List.replicate 16384 65) 32768
      = Except.error UnicodeStringSizeOverflow.mk := by
  have he : encode_utf16 (List.replicate 16384 65) = List.replicate 16384 65 :=
    encode_utf16_replicate_single 65 (by omega) 16384
  refine ⟨?_, ?_, ?_, ?_⟩
  · intro c hc
    rw [List.eq_of_mem_replicate hc]
    decide
  · rw [he, List.length_replicate]
    omega
  · rw [he, List.length_replicate]
    omega
  · rw [new_from_string, new_from_vec, if_pos (by omega)]

/-- C4 amended: `new_from_string` fails with the size-overflow error for
every text whose UTF-16 encoding exceeds 65535 bytes, whatever capacity
(≥ length) the collect produced; for a text below that bound it succeeds
exactly when the collected vector's capacity `cap` satisfies
`cap * 2 ≤ 65535`, and on success it round-trips: `try_as_string` on the
constructed holder returns the original text.  Text is the list of its
Unicode scalar values. -/
theorem descriptor_overflow_and_roundtrip (s : List Nat) (cap : Nat)
    (hv : ∀ c ∈ s, ValidScalar c = true)
    (hcap : (encode_utf16 s).length ≤ cap) :
    ((encode_utf16 s).length * 2 > 65535 →
      new_from_string s cap = Except.error UnicodeStringSizeOverflow.mk) ∧
    (cap * 2 ≤ 65535 →
      new_from_string s cap = Except.ok ⟨encode_utf16 s⟩ ∧
      try_as_string ⟨encode_utf16 s⟩ = some s) := by
  constructor
  · intro hbig
    rw [new_from_string, new_from_vec, if_pos (by omega)]
  · intro hsmall
    rw [new_from_string, new_from_vec, if_neg (by omega)]
    exact ⟨rfl, decode_encode_utf16 s hv⟩

theorem descriptor_overflow_and_roundtrip_witness :
    ((∀ c ∈ ([72, 65536] : List Nat), ValidScalar c = true) ∧
     (encode_utf16 [72, 65536]).length ≤ 4) ∧
    (4 * 2 ≤ 65535 ∧
     new_from_string [72, 65536] 4 = Except.ok ⟨encode_utf16 [72, 65536]⟩ ∧
     try_as_string ⟨encode_utf16 [72, 65536]⟩ = some [72, 65536]) :=
  ⟨⟨by decide, by decide⟩,
   by decide,
   (descriptor_overflow_and_roundtrip [72, 65536] 4 (by decide) (by decide)).2
     (by decide)⟩

theorem collectDisks_ok (ns : List Char → Except Nat (List DirectoryEntry))
    (pf : DirectoryEntry → List DirectoryEntry) :
    ∀ l : List DirectoryEntry,
      (∀ dev ∈ l, ns ("\\Device\\".data ++ dev.name) = Except.ok (pf dev)) →
      collectDisks ns l = Except.ok
        (l.flatMap (fun dev => ((pf dev).filter keepPartition).map (partitionPath dev))) := by
  intro l
  induction l with
  | nil => intro _; rfl
  | cons dev rest ih =>
    intro hsub
    rw [collectDisks]
    rw [hsub dev (List.mem_cons_self dev rest)]
    rw [ih (fun d hd => hsub d (List.mem_cons_of_mem _ hd))]
    rw [List.flatMap_cons]

/-- C5: when the root walk of `\Device` returns the entries `ds` and the
subdirectory walk of every retained device succeeds (returning `pf dev`),
`get_windows_disks` returns exactly one path
`\\?\GLOBALROOT\Device\<device>\<partition>` for each entry of `pf dev`
whose name starts with `Partition`, for each root entry whose type name is
`Directory` and whose name starts with `Harddisk`, all in enumeration
order. -/
theorem disks_filter_and_format (ns : List Char → Except Nat (List DirectoryEntry))
    (ds : List DirectoryEntry) (pf : DirectoryEntry → List DirectoryEntry)
    (hroot : ns "\\Device".data = Except.ok ds)
    (hsub : ∀ dev ∈ ds.filter keepDevice,
      ns ("\\Device\\".data ++ dev.name) = Except.ok (pf dev)) :
    get_windows_disks ns = Except.ok
      ((ds.filter keepDevice).flatMap
        (fun dev => ((pf dev).filter keepPartition).map (partitionPath dev))) := by
  rw [get_windows_disks, hroot]
  exact collectDisks_ok ns pf (ds.filter keepDevice) hsub

theorem disks_filter_and_format_witness :
    ((fun p => if p = "\\Device".data then
        Except.ok [⟨"Harddisk0".data, "Directory".data⟩, ⟨"Floppy0".data, "Directory".data⟩,
          ⟨"HarddiskVolume1".data, "SymbolicLink".data⟩]
      else if p = "\\Device\\Harddisk0".data then
        Except.ok [⟨"Partition0".data, "SymbolicLink".data⟩, ⟨"DR0".data, "Device".data⟩,
          ⟨"Partition1".data, "SymbolicLink".data⟩]
      else Except.error 5 :
        List Char → Except Nat (List DirectoryEntry)) "\\Device".data
      = Except.ok [⟨"Harddisk0".data, "Directory".data⟩, ⟨"Floppy0".data, "Directory".data⟩,
          ⟨"HarddiskVolume1".data, "SymbolicLink".data⟩]) ∧
    get_windows_disks (fun p => if p = "\\Device".data then
        Except.ok [⟨"Harddisk0".data, "Directory".data⟩, ⟨"Floppy0".data, "Directory".data⟩,
          ⟨"HarddiskVolume1".data, "SymbolicLink".data⟩]
      else if p = "\\Device\\Harddisk0".data then
        Except.ok [⟨"Partition0".data, "SymbolicLink".data⟩, ⟨"DR0".data, "Device".data⟩,
          ⟨"Partition1".data, "SymbolicLink".data⟩]
      else Except.error 5)
      = Except.ok
        (([⟨"Harddisk0".data, "Directory".data⟩, ⟨"Floppy0".data, "Directory".data⟩,
          ⟨"HarddiskVolume1".data, "SymbolicLink".data⟩].filter keepDevice).flatMap
          (fun dev => (((fun dv : DirectoryEntry =>
              if dv.name = "Harddisk0".data then
                [⟨"Partition0".data, "SymbolicLink".data⟩, ⟨"DR0".data, "Device".data⟩,
                  ⟨"Partition1".data, "SymbolicLink".data⟩]
              else []) dev).filter keepPartition).map (partitionPath dev))) :=
  ⟨by decide,
   disks_filter_and_format _
     [⟨"Harddisk0".data, "Directory".data⟩, ⟨"Floppy0".data, "Directory".data⟩,
       ⟨"HarddiskVolume1".data, "SymbolicLink".data⟩]
     (fun dv => if dv.name = "Harddisk0".data then
        [⟨"Partition0".data, "SymbolicLink".data⟩, ⟨"DR0".data, "Device".data⟩,
          ⟨"Partition1".data, "SymbolicLink".data⟩]
      else [])
     (by decide) (by decide)⟩

/-- C6: `get_disk_size` returns the last platform error when the control
call fails; when the call succeeds but the reported signed length is
negative it returns the distinct invalid-data error — never the OS-error
shape and never a coerced unsigned value; and it returns the length as an
unsigned integer exactly when the reported length is non-negative, with no
change of value. -/
theorem disk_size_error_paths (ioctl : Int → IoctlOutcome) :
    ((ioctl 0).result = 0 →
      get_disk_size ioctl = Except.error (DiskSizeError.osError (ioctl 0).lastError)) ∧
    ((ioctl 0).result ≠ 0 → (ioctl 0).newLength < 0 →
      get_disk_size ioctl = Except.error (DiskSizeError.invalidData (ioctl 0).newLength) ∧
      (∀ c, get_disk_size ioctl ≠ Except.error (DiskSizeError.osError c)) ∧
      (∀ n, get_disk_size ioctl ≠ Except.ok n)) ∧
    ((ioctl 0).result ≠ 0 → 0 ≤ (ioctl 0).newLength →
      get_disk_size ioctl = Except.ok (ioctl 0).newLength.toNat ∧
      ((ioctl 0).newLength.toNat : Int) = (ioctl 0).newLength) := by
  refine ⟨?_, ?_, ?_⟩
  · intro h0
    rw [get_disk_size, if_pos h0]
  · intro h0 hneg
    rw [get_disk_size, if_neg h0, if_pos hneg]
    refine ⟨rfl, ?_, ?_⟩
    · intro c hc
      cases hc
    · intro n hn
      cases hn
  · intro h0 hpos
    rw [get_disk_size, if_neg h0, if_neg (by omega)]
    exact ⟨rfl, Int.toNat_of_nonneg hpos⟩

theorem disk_size_error_paths_witness :
    get_disk_size (fun _ => ⟨0, 9, 8, 55⟩) = Except.error (DiskSizeError.osError 55) ∧
    get_disk_size (fun _ => ⟨1, -1, 8, 0⟩) = Except.error (DiskSizeError.invalidData (-1)) ∧
    get_disk_size (fun _ => ⟨1, 42, 8, 0⟩) = Except.ok 42 :=
  ⟨(disk_size_error_paths (fun _ => ⟨0, 9, 8, 55⟩)).1 rfl,
   ((disk_size_error_paths (fun _ => ⟨1, -1, 8, 0⟩)).2.1 (by decide) (by decide)).1,
   ((disk_size_error_paths (fun _ => ⟨1, 42, 8, 0⟩)).2.2 (by decide) (by decide)).1⟩

/-- C7 counterexample: the claim states that the caller validates, before
trusting the length field, that the control call's returned byte count
equals `size_of::<GET_LENGTH_INFORMATION>()` (8).  It does not: a
successful call reporting `bytes_returned = 0` still has its length field
trusted and returned as the disk size. -/
theorem disk_size_no_byte_count_validation_cex :
    get_disk_size (fun _ => ⟨1, 42, 0, 0⟩) = Except.ok 42 := by
  decide

/-- C7 amended: `get_disk_size` pre-zeroes the control call's output buffer
— the call's outcome is consulted only at initial buffer value `0` — but it
performs no validation of the returned byte count: the result is invariant
under arbitrary changes to `bytes_returned`. -/
theorem disk_size_prezero_no_validation :
    (∀ f g : Int → IoctlOutcome, f 0 = g 0 → get_disk_size f = get_disk_size g) ∧
    (∀ (f : Int → IoctlOutcome) (br : Nat),
      get_disk_size (fun x => { f x with bytesReturned := br }) = get_disk_size f) := by
  constructor
  · intro f g h
    rw [get_disk_size, get_disk_size, h]
  · intro f br
    rw [get_disk_size, get_disk_size]

theorem disk_size_prezero_no_validation_witness :
    ((fun _ : Int => (⟨1, 7, 8, 0⟩ : IoctlOutcome)) 0
      = (fun x : Int => if x = 0 then (⟨1, 7, 8, 0⟩ : IoctlOutcome) else ⟨0, 0, 0, 0⟩) 0) ∧
    get_disk_size (fun _ => ⟨1, 7, 8, 0⟩)
      = get_disk_size (fun x => if x = 0 then ⟨1, 7, 8, 0⟩ else ⟨0, 0, 0, 0⟩) :=
  ⟨rfl,
   disk_size_prezero_no_validation.1 (fun _ => ⟨1, 7, 8, 0⟩)
     (fun x => if x = 0 then ⟨1, 7, 8, 0⟩ else ⟨0, 0, 0, 0⟩) rfl⟩

/-- C8 counterexample: a failed device size query during the listing
command does not yield exit code 1.  With one enumerated disk whose open
succeeds and whose size query fails, `do_list_windows` prints the disk with
no size line and returns 0. -/
theorem list_size_query_failure_exits_zero_cex :
    do_list_windows 2 (Except.ok ["A".data]) (fun _ => Except.ok ())
        (fun _ => Except.error 5)
      = ([("A".data, Option.none)], 0) ∧
    (do_list_windows 2 (Except.ok ["A".data]) (fun _ => Except.ok ())
        (fun _ => Except.error 5)).2 ≠ 1 := by
  constructor
  · rfl
  · decide

/-- C8 amended: the exit code is 0 on success (including `--help`) and 1 on
failures — wrong argument count, unknown command, `list` on a platform
without the kernel namespace, enumeration failure, and a failing command
whose nonzero code propagates through `do_main` — except that a failed open
or size query of an individual disk during the listing command is a printed
diagnostic only: the listing still exits 0. -/
theorem exit_codes_amended (openRes : List Char → Except Nat Unit)
    (sizeRes : List Char → Except Nat Nat) (disks : List (List Char))
    (e : Nat) (listResult ddResult : Nat) :
    ((do_list_windows 2 (Except.error e) openRes sizeRes).2 = 1 ∧
     (do_list_windows 2 (Except.ok disks) openRes sizeRes).2 = 0 ∧
     (∀ argCount, argCount ≠ 2 →
       (do_list_windows argCount (Except.ok disks) openRes sizeRes).2 = 1)) ∧
    (∀ prog : List Char,
      do_main [prog] listResult ddResult true = 1 ∧
      (∀ rest, do_main (prog :: "--help".data :: rest) listResult ddResult true = 0) ∧
      (∀ rest, do_main (prog :: "list".data :: rest) listResult ddResult true = listResult) ∧
      (∀ rest, do_main (prog :: "list".data :: rest) listResult ddResult false = 1) ∧
      (∀ rest, do_main (prog :: "dd".data :: rest) listResult ddResult true = ddResult) ∧
      (∀ rest, do_main (prog :: "copy".data :: rest) listResult ddResult true = 1)) := by
  refine ⟨⟨?_, ?_, ?_⟩, ?_⟩
  · rfl
  · rw [do_list_windows, if_neg (by omega)]
  · intro argCount hac
    rw [do_list_windows, if_pos hac]
  · intro prog
    refine ⟨?_, ?_, ?_, ?_, ?_, ?_⟩
    · rw [do_main, if_pos (by simp)]
    all_goals
      intro rest
      rw [do_main, if_neg (by simp)]
      simp only [List.getElem?_cons_succ, List.getElem?_cons_zero]
    · rw [if_pos (by decide)]
    · rw [if_neg (by decide), if_pos (by decide)]
      simp
    · rw [if_neg (by decide), if_pos (by decide)]
      simp
    · rw [if_neg (by decide), if_neg (by decide), if_pos (by decide)]
    · rw [if_neg (by decide), if_neg (by decide), if_neg (by decide)]

theorem exit_codes_amended_witness :
    (do_list_windows 3 (Except.ok ["A".data]) (fun _ => Except.ok ())
        (fun _ => Except.ok 9)).2 = 1 :=
  (exit_codes_amended (fun _ => Except.ok ()) (fun _ => Except.ok 9)
    ["A".data] 0 0 0).1.2.2 3 (by decide)
